import Mathlib

/-!
Verification development for the StoryOS session-streaming core.

The definitions below are shallow embeddings of the repository's code:
* `GWS` and `step` embed the `GameWebSocket` class of
  `frontend/src/api/client.ts` (connection lifecycle, reconnect back-off,
  outbound queue, heartbeat, manual disconnect).
* `UIState` and `handleWebsocketMessage` embed the websocket message handler
  of `frontend/src/pages/Game.tsx`.
* `loadStep` embeds the initial-story guard of `Game.tsx`'s `loadSession`.
* `hubConnect` and friends embed `GameWebSocketManager` from the migration
  design document (`docs/kling-ai-api-doc-images.md`).
* `jsParseFloat` / `handleSaveVersionField` embed the version-bump logic of
  `Scenarios.handleSave`.
* `Coord` / `stepC` model the server-side optimistic write coordinator.

Timers are given explicit identities (`liveReconnectTimers`,
`liveHeartbeatTimers` hold the ids of armed, not-yet-cancelled timers, the
`tracked*` fields hold the handle the instance remembers) so that claims
about timer accumulation and cancellation are meaningful.  Machine events
(transport open/close, timer firings, send successes and failures) are an
explicit event alphabet `Ev`; observable effects are the action alphabet
`Act`.
-/

namespace StoryOS

/-- Readiness states of a browser WebSocket (`readyState`). -/
inductive WSReady
  | connecting
  | opened
  | closing
  | closedSt
deriving DecidableEq, Repr

/-- Constant `maxReconnectAttempts = 5` from `client.ts`. -/
def maxReconnectAttempts : Nat := 5

/-- Heartbeat period (ms): `setInterval(..., 30000)` in `startHeartbeat`. -/
def heartbeatIntervalMs : Nat := 30000

/-- Base reconnect delay (ms): `1000 * Math.pow(2, ...)` in `scheduleReconnect`. -/
def reconnectBaseDelayMs : Nat := 1000

/-- Reconnect delay cap (ms): `Math.min(..., 30000)` in `scheduleReconnect`. -/
def reconnectCapDelayMs : Nat := 30000

/-- State of one `GameWebSocket` instance (`frontend/src/api/client.ts`).
Queued payloads are identified by natural-number ids. -/
structure GWS where
  wsState : Option WSReady
  queue : List Nat
  reconnectAttempts : Nat
  liveReconnectTimers : List Nat
  trackedReconnectTimer : Option Nat
  liveHeartbeatTimers : List Nat
  trackedHeartbeatTimer : Option Nat
  isManualDisconnect : Bool
  nextTimerId : Nat
deriving DecidableEq, Repr

/-- Observable effects of the `GameWebSocket` code. -/
inductive Act
  | scheduled (attempt : Nat) (delayMs : Nat)
  | wsCreated
  | sentDirect (m : Nat)
  | sentFromQueue (m : Nat)
  | pushed (m : Nat)
  | pingSent
  | pingFailed
  | closeCalled
  | surfacedClose
deriving DecidableEq, Repr

/-- Events driving one `GameWebSocket` instance: API calls, transport
callbacks and timer firings.  Boolean arguments are the environment's
verdict on whether a `send` succeeds. -/
inductive Ev
  | connect
  | wsOpen (oks : List Bool)
  | wsClose
  | timerFire (t : Nat)
  | hbTick (t : Nat) (ok : Bool)
  | enqueue (m : Nat) (ok : Bool)
  | disconnect
deriving DecidableEq, Repr

/-- `stopHeartbeat`: clears the tracked heartbeat interval, if any. -/
def stopHeartbeat (s : GWS) : GWS :=
  match s.trackedHeartbeatTimer with
  | some t =>
      { s with liveHeartbeatTimers := s.liveHeartbeatTimers.erase t,
               trackedHeartbeatTimer := none }
  | none => s

/-- `startHeartbeat`: stops any existing heartbeat, then arms a fresh one. -/
def startHeartbeat (s : GWS) : GWS :=
  let s1 := stopHeartbeat s
  { s1 with liveHeartbeatTimers := s1.liveHeartbeatTimers ++ [s1.nextTimerId],
            trackedHeartbeatTimer := some s1.nextTimerId,
            nextTimerId := s1.nextTimerId + 1 }

/-- `clearTimeout(this.reconnectTimeout)` followed by nulling the handle. -/
def clearReconnectTimer (s : GWS) : GWS :=
  match s.trackedReconnectTimer with
  | some t =>
      { s with liveReconnectTimers := s.liveReconnectTimers.erase t,
               trackedReconnectTimer := none }
  | none => s

/-- Delay for (1-indexed) reconnect attempt `k`:
`Math.min(1000 * Math.pow(2, k - 1), 30000)`. -/
def reconnectDelayMs (k : Nat) : Nat :=
  min (reconnectBaseDelayMs * 2 ^ (k - 1)) reconnectCapDelayMs

/-- `scheduleReconnect`: clear any pending reconnect timer, increment
`reconnectAttempts`, arm a timer for the computed back-off delay. -/
def scheduleReconnect (s : GWS) : GWS × List Act :=
  let s1 := clearReconnectTimer s
  let k := s1.reconnectAttempts + 1
  ({ s1 with reconnectAttempts := k,
             liveReconnectTimers := s1.liveReconnectTimers ++ [s1.nextTimerId],
             trackedReconnectTimer := some s1.nextTimerId,
             nextTimerId := s1.nextTimerId + 1 },
   [Act.scheduled k (reconnectDelayMs k)])

/-- `createWebSocket`: opens a fresh transport (enters CONNECTING). -/
def createWebSocket (s : GWS) : GWS × List Act :=
  ({ s with wsState := some WSReady.connecting }, [Act.wsCreated])

/-- One pass of `flushQueue`'s while-loop: splits the queue into the
successfully sent prefix and the remainder.  `oks` is the environment's
verdict for each attempted send (missing entries default to success);
a failed payload is shifted, fails to send, and is unshifted back to the
front, stopping the flush. -/
def flushSplit : List Nat → List Bool → List Nat × List Nat
  | [], _ => ([], [])
  | m :: rest, oks =>
      if oks.headD true then
        let p := flushSplit rest oks.tail
        (m :: p.1, p.2)
      else ([], m :: rest)

/-- The `onopen` handler: reset `reconnectAttempts`, start the heartbeat,
flush the queue FIFO.  Fires only for a socket in CONNECTING state. -/
def onOpen (s : GWS) (oks : List Bool) : GWS × List Act :=
  if s.wsState = some WSReady.connecting then
    let s1 := { s with wsState := some WSReady.opened, reconnectAttempts := 0 }
    let s2 := startHeartbeat s1
    let p := flushSplit s2.queue oks
    ({ s2 with queue := p.2 }, p.1.map Act.sentFromQueue)
  else (s, [])

/-- The socket whose close event fired is now CLOSED. -/
def markClosed (s : GWS) : GWS :=
  match s.wsState with
  | some _ => { s with wsState := some WSReady.closedSt }
  | none => s

/-- The `onclose` handler: stop the heartbeat; reconnect only when the close
was not manual and the attempt budget remains, otherwise surface the close. -/
def onClose (s : GWS) : GWS × List Act :=
  let s2 := markClosed (stopHeartbeat s)
  if !s2.isManualDisconnect && decide (s2.reconnectAttempts < maxReconnectAttempts) then
    scheduleReconnect s2
  else
    (s2, [Act.surfacedClose])

/-- A reconnect timeout fires: only an armed timer acts; it re-opens the
transport via `createWebSocket`. -/
def timerFireStep (s : GWS) (t : Nat) : GWS × List Act :=
  if t ∈ s.liveReconnectTimers then
    createWebSocket { s with liveReconnectTimers := s.liveReconnectTimers.erase t }
  else (s, [])

/-- A heartbeat interval tick: when the socket is OPEN it sends a `ping`;
a send failure is caught and logged (`console.error`) only. -/
def hbTickStep (s : GWS) (t : Nat) (ok : Bool) : GWS × List Act :=
  if t ∈ s.liveHeartbeatTimers then
    if s.wsState = some WSReady.opened then
      if ok then (s, [Act.pingSent]) else (s, [Act.pingFailed])
    else (s, [])
  else (s, [])

/-- `enqueue(payload)`: send immediately when OPEN (queueing on a send
failure), queue when CONNECTING, otherwise queue and, if not manually
closed and budget remains, schedule a reconnect. -/
def enqueueStep (s : GWS) (m : Nat) (ok : Bool) : GWS × List Act :=
  match s.wsState with
  | some WSReady.opened =>
      if ok then (s, [Act.sentDirect m])
      else ({ s with queue := s.queue ++ [m] }, [Act.pushed m])
  | some WSReady.connecting =>
      ({ s with queue := s.queue ++ [m] }, [Act.pushed m])
  | _ =>
      let s1 := { s with queue := s.queue ++ [m] }
      if !s1.isManualDisconnect && decide (s1.reconnectAttempts < maxReconnectAttempts) then
        let p := scheduleReconnect s1
        (p.1, Act.pushed m :: p.2)
      else (s1, [Act.pushed m])

/-- `disconnect()`: set the manual flag, stop the heartbeat, cancel the
pending reconnect timer, close the transport, clear the queue. -/
def disconnectStep (s : GWS) : GWS × List Act :=
  let s1 := stopHeartbeat { s with isManualDisconnect := true }
  let s2 := clearReconnectTimer s1
  let acts := if s2.wsState.isSome then [Act.closeCalled] else []
  ({ s2 with wsState := none, queue := [] }, acts)

/-- `connect(...)`: reset the manual flag and open a transport. -/
def connectStep (s : GWS) : GWS × List Act :=
  createWebSocket { s with isManualDisconnect := false }

/-- One event of the `GameWebSocket` machine. -/
def step (s : GWS) : Ev → GWS × List Act
  | Ev.connect => connectStep s
  | Ev.wsOpen oks => onOpen s oks
  | Ev.wsClose => onClose s
  | Ev.timerFire t => timerFireStep s t
  | Ev.hbTick t ok => hbTickStep s t ok
  | Ev.enqueue m ok => enqueueStep s m ok
  | Ev.disconnect => disconnectStep s

/-- Run a sequence of events, accumulating the emitted actions. -/
def run (s : GWS) : List Ev → GWS × List Act
  | [] => (s, [])
  | e :: rest =>
      let p := step s e
      let q := run p.1 rest
      (q.1, p.2 ++ q.2)

/-- A freshly constructed `GameWebSocket` instance. -/
def initGWS : GWS :=
  { wsState := none, queue := [], reconnectAttempts := 0,
    liveReconnectTimers := [], trackedReconnectTimer := none,
    liveHeartbeatTimers := [], trackedHeartbeatTimer := none,
    isManualDisconnect := false, nextTimerId := 0 }

/-- Payloads delivered from the queue (the `flushQueue` path), in order. -/
def sentFromQueueList (acts : List Act) : List Nat :=
  acts.filterMap fun a =>
    match a with
    | Act.sentFromQueue m => some m
    | _ => none

/-- Payloads sent directly while OPEN, in order. -/
def sentDirectList (acts : List Act) : List Nat :=
  acts.filterMap fun a =>
    match a with
    | Act.sentDirect m => some m
    | _ => none

/-- All delivered payloads (direct or from the queue), in order. -/
def sentList (acts : List Act) : List Nat :=
  acts.filterMap fun a =>
    match a with
    | Act.sentDirect m => some m
    | Act.sentFromQueue m => some m
    | _ => none

/-- Payloads pushed onto `this.queue`, in push order. -/
def pushedList (acts : List Act) : List Nat :=
  acts.filterMap fun a =>
    match a with
    | Act.pushed m => some m
    | _ => none

/-- Ids carried by the `enqueue` events of a trace, in order. -/
def enqueueIds (evs : List Ev) : List Nat :=
  evs.filterMap fun e =>
    match e with
    | Ev.enqueue m _ => some m
    | _ => none

/-- `true` when the trace contains no transport-open event. -/
def noOpenEv (evs : List Ev) : Bool :=
  evs.all fun e =>
    match e with
    | Ev.wsOpen _ => false
    | _ => true

/-- `true` when the trace contains no `connect()` call. -/
def noConnectEv (evs : List Ev) : Bool :=
  evs.all fun e =>
    match e with
    | Ev.connect => false
    | _ => true

/-- Client-side UI state touched by `handleWebsocketMessage` in
`frontend/src/pages/Game.tsx` (messages are kept as their content strings). -/
structure UIState where
  messages : List String
  streaming : String
  isLoading : Bool
  loadingMessage : String
  visualizationError : Option String
deriving DecidableEq, Repr

/-- Server-to-client envelopes dispatched on `payload.type`.  For the
`error` envelope, `message` is `some s` when `payload.message` is a string
and `none` otherwise (the `typeof` check in the handler). -/
inductive ServerMsg
  | statusUpdate (message : Option String)
  | storyChunk (content : String)
  | storyComplete
  | visualPromptsReady
  | errorEnvelope (message : Option String)
  | unknown
deriving DecidableEq, Repr

/-- Side effects the `Game.tsx` handler can request on the connection or
the session.  Closing/disconnecting the transport is expressible but, as
proved below, never emitted. -/
inductive UIAct
  | reloadSession
  | closeConnection
  | disconnectConnection
deriving DecidableEq, Repr

/-- Default error text used when `payload.message` is not a string. -/
def defaultStreamErrorText : String :=
  "Visualization stream encountered an error."

/-- The `handleWebsocketMessage` callback of `Game.tsx`. -/
def handleWebsocketMessage (s : UIState) : ServerMsg → UIState × List UIAct
  | ServerMsg.statusUpdate m => ({ s with loadingMessage := m.getD "" }, [])
  | ServerMsg.storyChunk c => ({ s with streaming := s.streaming ++ c }, [])
  | ServerMsg.storyComplete =>
      let s1 :=
        if s.streaming ≠ "" then { s with messages := s.messages ++ [s.streaming] }
        else s
      ({ s1 with streaming := "", isLoading := false, loadingMessage := "" },
       [UIAct.reloadSession])
  | ServerMsg.visualPromptsReady => (s, [UIAct.reloadSession])
  | ServerMsg.errorEnvelope m =>
      ({ s with streaming := "", isLoading := false, loadingMessage := "",
                visualizationError := some (m.getD defaultStreamErrorText) },
       [])
  | ServerMsg.unknown => (s, [])

/-- One `loadSession` pass of `Game.tsx` restricted to the initial-story
guard: given the process-wide requested-session registry, the session id
and whether the fetched session has no messages, returns the new registry
and whether `requestInitialStory` was invoked.  The id is added to the
registry before the request is issued. -/
def loadStep (reg : List String) (sid : String) (messagesEmpty : Bool) :
    List String × Bool :=
  if messagesEmpty && !(reg.contains sid) then (sid :: reg, true) else (reg, false)

/-- Run a sequence of `loadSession` passes (session id, messages-empty flag),
collecting the ids for which an `initial_story` request was issued. -/
def runLoads (reg : List String) : List (String × Bool) → List String × List String
  | [] => (reg, [])
  | (sid, b) :: rest =>
      let p := loadStep reg sid b
      let q := runLoads p.1 rest
      (q.1, (if p.2 then [sid] else []) ++ q.2)

/-- Observable effects of the server-side `GameWebSocketManager`. -/
inductive HubAct
  | accepted (ws : Nat)
  | closedPrior (ws : Nat)
  | sentText (ws : Nat) (chunk : String)
deriving DecidableEq, Repr

/-- Python dict assignment `d[k] = v` on an association list. -/
def dictSet (m : List (String × Nat)) (k : String) (v : Nat) : List (String × Nat) :=
  match m with
  | [] => [(k, v)]
  | (k1, v1) :: rest => if k1 = k then (k, v) :: rest else (k1, v1) :: dictSet rest k v

/-- Python `d.pop(k, None)` on an association list. -/
def dictPop (m : List (String × Nat)) (k : String) : List (String × Nat) :=
  match m with
  | [] => []
  | (k1, v1) :: rest => if k1 = k then rest else (k1, v1) :: dictPop rest k

/-- Lookup in the registry. -/
def dictGet (m : List (String × Nat)) (k : String) : Option Nat :=
  match m with
  | [] => none
  | (k1, v1) :: rest => if k1 = k then some v1 else dictGet rest k

/-- `GameWebSocketManager.connect` from the migration design document:
`await websocket.accept()` then `self.active_connections[session_id] =
websocket`.  No close is issued for a previously registered transport. -/
def hubConnect (m : List (String × Nat)) (sid : String) (ws : Nat) :
    List (String × Nat) × List HubAct :=
  (dictSet m sid ws, [HubAct.accepted ws])

/-- `GameWebSocketManager.disconnect`: drop the binding, idempotently. -/
def hubDisconnect (m : List (String × Nat)) (sid : String) :
    List (String × Nat) × List HubAct :=
  (dictPop m sid, [])

/-- `GameWebSocketManager.send_chunk`: send to the registered transport,
silently dropping when none is registered. -/
def hubSendChunk (m : List (String × Nat)) (sid : String) (chunk : String) :
    List (String × Nat) × List HubAct :=
  match dictGet m sid with
  | some ws => (m, [HubAct.sentText ws chunk])
  | none => (m, [])

/-- Hub operations. -/
inductive HubOp
  | register (sid : String) (ws : Nat)
  | unregister (sid : String)
  | emit (sid : String) (chunk : String)
deriving DecidableEq, Repr

/-- One hub operation. -/
def hubStep (m : List (String × Nat)) : HubOp → List (String × Nat) × List HubAct
  | HubOp.register sid ws => hubConnect m sid ws
  | HubOp.unregister sid => hubDisconnect m sid
  | HubOp.emit sid chunk => hubSendChunk m sid chunk

/-- Run a sequence of hub operations. -/
def runHub (m : List (String × Nat)) : List HubOp → List (String × Nat) × List HubAct
  | [] => (m, [])
  | op :: rest =>
      let p := hubStep m op
      let q := runHub p.1 rest
      (q.1, p.2 ++ q.2)

/-- JavaScript numbers as they arise in the scenario save path: a finite
value, an infinity, or NaN. -/
inductive JSNum
  | finite (q : ℚ)
  | posInf
  | negInf
  | nan
deriving DecidableEq, Repr

/-- Numeric value of a digit string. -/
def digitsVal (cs : List Char) : Nat :=
  cs.foldl (fun acc c => acc * 10 + (c.toNat - 48)) 0

/-- Exponent part of a JS float literal prefix: `e`/`E`, optional sign,
digits.  Yields `0` (no scaling) when the exponent part is absent or
malformed, since `parseFloat` then stops before the `e`. -/
def parseExpPart (cs : List Char) : Int :=
  match cs with
  | c :: rest =>
      if c = 'e' ∨ c = 'E' then
        match rest with
        | s :: rest2 =>
            if s = '+' then
              (if rest2.takeWhile Char.isDigit ≠ [] then
                 (digitsVal (rest2.takeWhile Char.isDigit) : Int)
               else 0)
            else if s = '-' then
              (if rest2.takeWhile Char.isDigit ≠ [] then
                 -(digitsVal (rest2.takeWhile Char.isDigit) : Int)
               else 0)
            else if s.isDigit then
              (digitsVal ((s :: rest2).takeWhile Char.isDigit) : Int)
            else 0
        | [] => 0
      else 0
  | [] => 0

/-- Unsigned part of `parseFloat`: longest prefix `digits [. digits] [exp]`
or `. digits [exp]`; `none` when no digit is found (NaN). -/
def parseUnsigned (cs : List Char) : Option ℚ :=
  let d1 := cs.takeWhile Char.isDigit
  let rest1 := cs.dropWhile Char.isDigit
  match rest1 with
  | '.' :: rest2 =>
      let d2 := rest2.takeWhile Char.isDigit
      let rest3 := rest2.dropWhile Char.isDigit
      if d1 = [] ∧ d2 = [] then none
      else
        let mant : ℚ := (digitsVal d1 : ℚ) + (digitsVal d2 : ℚ) / (10 : ℚ) ^ d2.length
        some (mant * (10 : ℚ) ^ parseExpPart rest3)
  | _ =>
      if d1 = [] then none
      else some ((digitsVal d1 : ℚ) * (10 : ℚ) ^ parseExpPart rest1)

/-- JavaScript `parseFloat`: skip leading whitespace, optional sign, then
the longest numeric-literal prefix (`Infinity` included); NaN otherwise. -/
def jsParseFloat (s : String) : JSNum :=
  let cs := s.toList.dropWhile Char.isWhitespace
  match cs with
  | '-' :: rest =>
      if rest.take 8 = "Infinity".toList then JSNum.negInf
      else
        match parseUnsigned rest with
        | some q => JSNum.finite (-q)
        | none => JSNum.nan
  | '+' :: rest =>
      if rest.take 8 = "Infinity".toList then JSNum.posInf
      else
        match parseUnsigned rest with
        | some q => JSNum.finite q
        | none => JSNum.nan
  | _ =>
      if cs.take 8 = "Infinity".toList then JSNum.posInf
      else
        match parseUnsigned cs with
        | some q => JSNum.finite q
        | none => JSNum.nan

/-- `isNaN` on a JS number. -/
def jsIsNaN : JSNum → Bool
  | JSNum.nan => true
  | _ => false

/-- `Math.floor` on a JS number. -/
def jsFloorNum : JSNum → JSNum
  | JSNum.finite q => JSNum.finite ((Rat.floor q : ℤ) : ℚ)
  | x => x

/-- `n + 1` on a JS number. -/
def jsAddOne : JSNum → JSNum
  | JSNum.finite q => JSNum.finite (q + 1)
  | x => x

/-- A JS value stored in a scenario's `version` field: a number, a string,
or anything else (`typeof` is neither number nor string). -/
inductive ScenVal
  | num (n : JSNum)
  | str (s : String)
  | other
deriving DecidableEq, Repr

/-- The version-bump computation of `Scenarios.handleSave` for the case
where the user did not edit the version field: a numeric stored version
increments; a string stored version goes through `parseFloat`, and when
the result is not NaN, `Math.floor(parsed) + 1`; otherwise `newVersion`
stays `undefined`. -/
def bumpedScenarioVersion : Option ScenVal → Option JSNum
  | some (ScenVal.num v) => some (jsAddOne v)
  | some (ScenVal.str s) =>
      let parsed := jsParseFloat s
      if jsIsNaN parsed then none else some (jsAddOne (jsFloorNum parsed))
  | _ => none

/-- Value of `updateData.version` sent by `Scenarios.handleSave`:
the user's edited value when present, else the bumped stored version when
computable, else the payload carries no `version` key (`none`). -/
def handleSaveVersionField (edited : Option ScenVal) (stored : Option ScenVal) :
    Option ScenVal :=
  match edited with
  | some v => some v
  | none =>
      match bumpedScenarioVersion stored with
      | some n => some (ScenVal.num n)
      | none => none

/-- Modelled from the spec: the backend optimistic Write Coordinator
(`applyMutation` over the session document, §4.1) is not among the source
files; only its migration notes are.  Retry budget: a conflicted update
"retries up to 3 times with exponential backoff" (migration notes), i.e.
one initial try plus up to three retries, four conditional writes in all. -/
def maxWriteRetries : Nat := 3

/-- Modelled from the spec: status of one mutation attempt. -/
inductive AttStatus
  | running
  | accepted
  | exhausted
deriving DecidableEq, Repr

/-- Modelled from the spec: one mutation attempt of the Write Coordinator:
the version it last read (`none` when it must (re-)read) and how many
conditional writes it has performed. -/
structure Attempt where
  status : AttStatus
  readVer : Option Nat
  casTries : Nat
deriving DecidableEq, Repr

/-- Modelled from the spec: the session document's version plus the set of
in-flight attempts; `log` records each accepted write as the pair
(version read, resulting version) in acceptance order. -/
structure Coord where
  version : Nat
  attempts : List Attempt
  log : List (Nat × Nat)
deriving DecidableEq, Repr

/-- Modelled from the spec: initial coordinator state: document at version
`v`, `n` attempts yet to read. -/
def initCoord (v n : Nat) : Coord :=
  { version := v,
    attempts := List.replicate n { status := AttStatus.running, readVer := none, casTries := 0 },
    log := [] }

/-- Modelled from the spec: one micro-step of attempt `i`: a running
attempt with no read yet reads the current version; one holding a read
performs the atomic conditional write, which succeeds exactly when the
stored version still equals the version read, and otherwise consumes one
retry, surfacing ConflictExhausted after the budget is spent. -/
def stepC (c : Coord) (i : Nat) : Coord :=
  match c.attempts[i]? with
  | none => c
  | some a =>
      match a.status, a.readVer with
      | AttStatus.running, none =>
          { c with attempts := c.attempts.set i { a with readVer := some c.version } }
      | AttStatus.running, some rv =>
          if rv = c.version then
            let a1 := { a with status := AttStatus.accepted, casTries := a.casTries + 1 }
            { version := c.version + 1,
              attempts := c.attempts.set i a1,
              log := c.log ++ [(rv, rv + 1)] }
          else
            if a.casTries + 1 > maxWriteRetries then
              let a1 := { a with status := AttStatus.exhausted, casTries := a.casTries + 1 }
              { c with attempts := c.attempts.set i a1 }
            else
              let a1 := { a with readVer := none, casTries := a.casTries + 1 }
              { c with attempts := c.attempts.set i a1 }
      | _, _ => c

/-- Modelled from the spec: run the coordinator under a schedule (a list of
attempt indices, each performing one micro-step). -/
def runC (c : Coord) : List Nat → Coord
  | [] => c
  | i :: rest => runC (stepC c i) rest

/-- Every attempt has terminated (been accepted or surfaced
ConflictExhausted). -/
def coordDone (c : Coord) : Bool :=
  c.attempts.all fun a => a.status ≠ AttStatus.running

/-- Number of accepted attempts. -/
def acceptedCount (c : Coord) : Nat :=
  (c.attempts.filter fun a => a.status = AttStatus.accepted).length

/-- Number of attempts that surfaced ConflictExhausted. -/
def exhaustedCount (c : Coord) : Nat :=
  (c.attempts.filter fun a => a.status = AttStatus.exhausted).length

/-- Timer sanity: at most one live reconnect timer and at most one live
heartbeat interval, and a live timer is always the tracked one. -/
def timersOk (s : GWS) : Prop :=
  (s.liveReconnectTimers = [] ∨
    ∃ t, s.trackedReconnectTimer = some t ∧ s.liveReconnectTimers = [t]) ∧
  (s.liveHeartbeatTimers = [] ∨
    ∃ t, s.trackedHeartbeatTimer = some t ∧ s.liveHeartbeatTimers = [t])

/-- Modelled from the spec: invariant of the Write Coordinator system with
initial version `v0` and `n` attempts. -/
def coordInv (v0 n : Nat) (c : Coord) : Prop :=
  c.attempts.length = n ∧
  c.version = v0 + c.log.length ∧
  c.log = (List.range c.log.length).map (fun j => (v0 + j, v0 + j + 1)) ∧
  c.log.length = acceptedCount c ∧
  (∀ a ∈ c.attempts, a.status = AttStatus.exhausted → a.casTries = maxWriteRetries + 1) ∧
  (∀ a ∈ c.attempts, a.status = AttStatus.running → a.casTries ≤ maxWriteRetries)

theorem stopHeartbeat_queue (s : GWS) : (stopHeartbeat s).queue = s.queue := by
  unfold stopHeartbeat; cases s.trackedHeartbeatTimer <;> rfl

theorem stopHeartbeat_wsState (s : GWS) : (stopHeartbeat s).wsState = s.wsState := by
  unfold stopHeartbeat; cases s.trackedHeartbeatTimer <;> rfl

theorem stopHeartbeat_attempts (s : GWS) :
    (stopHeartbeat s).reconnectAttempts = s.reconnectAttempts := by
  unfold stopHeartbeat; cases s.trackedHeartbeatTimer <;> rfl

theorem stopHeartbeat_manual (s : GWS) :
    (stopHeartbeat s).isManualDisconnect = s.isManualDisconnect := by
  unfold stopHeartbeat; cases s.trackedHeartbeatTimer <;> rfl

theorem stopHeartbeat_liveRec (s : GWS) :
    (stopHeartbeat s).liveReconnectTimers = s.liveReconnectTimers := by
  unfold stopHeartbeat; cases s.trackedHeartbeatTimer <;> rfl

theorem stopHeartbeat_trackedRec (s : GWS) :
    (stopHeartbeat s).trackedReconnectTimer = s.trackedReconnectTimer := by
  unfold stopHeartbeat; cases s.trackedHeartbeatTimer <;> rfl

theorem startHeartbeat_queue (s : GWS) : (startHeartbeat s).queue = s.queue := by
  simp [startHeartbeat, stopHeartbeat_queue]

theorem startHeartbeat_wsState (s : GWS) : (startHeartbeat s).wsState = s.wsState := by
  simp [startHeartbeat, stopHeartbeat_wsState]

theorem startHeartbeat_attempts (s : GWS) :
    (startHeartbeat s).reconnectAttempts = s.reconnectAttempts := by
  simp [startHeartbeat, stopHeartbeat_attempts]

theorem startHeartbeat_manual (s : GWS) :
    (startHeartbeat s).isManualDisconnect = s.isManualDisconnect := by
  simp [startHeartbeat, stopHeartbeat_manual]

theorem startHeartbeat_liveRec (s : GWS) :
    (startHeartbeat s).liveReconnectTimers = s.liveReconnectTimers := by
  simp [startHeartbeat, stopHeartbeat_liveRec]

theorem startHeartbeat_trackedRec (s : GWS) :
    (startHeartbeat s).trackedReconnectTimer = s.trackedReconnectTimer := by
  simp [startHeartbeat, stopHeartbeat_trackedRec]

theorem clearReconnectTimer_queue (s : GWS) :
    (clearReconnectTimer s).queue = s.queue := by
  unfold clearReconnectTimer; cases s.trackedReconnectTimer <;> rfl

theorem clearReconnectTimer_wsState (s : GWS) :
    (clearReconnectTimer s).wsState = s.wsState := by
  unfold clearReconnectTimer; cases s.trackedReconnectTimer <;> rfl

theorem clearReconnectTimer_attempts (s : GWS) :
    (clearReconnectTimer s).reconnectAttempts = s.reconnectAttempts := by
  unfold clearReconnectTimer; cases s.trackedReconnectTimer <;> rfl

theorem clearReconnectTimer_manual (s : GWS) :
    (clearReconnectTimer s).isManualDisconnect = s.isManualDisconnect := by
  unfold clearReconnectTimer; cases s.trackedReconnectTimer <;> rfl

theorem clearReconnectTimer_liveHb (s : GWS) :
    (clearReconnectTimer s).liveHeartbeatTimers = s.liveHeartbeatTimers := by
  unfold clearReconnectTimer; cases s.trackedReconnectTimer <;> rfl

theorem clearReconnectTimer_trackedHb (s : GWS) :
    (clearReconnectTimer s).trackedHeartbeatTimer = s.trackedHeartbeatTimer := by
  unfold clearReconnectTimer; cases s.trackedReconnectTimer <;> rfl

theorem clearReconnectTimer_liveRec_of_nil (s : GWS) (h : s.liveReconnectTimers = []) :
    (clearReconnectTimer s).liveReconnectTimers = [] := by
  unfold clearReconnectTimer
  split
  · simp [h]
  · exact h

theorem scheduleReconnect_fst_queue (s : GWS) :
    (scheduleReconnect s).1.queue = s.queue := by
  simp [scheduleReconnect, clearReconnectTimer_queue]

theorem scheduleReconnect_fst_wsState (s : GWS) :
    (scheduleReconnect s).1.wsState = s.wsState := by
  simp [scheduleReconnect, clearReconnectTimer_wsState]

theorem scheduleReconnect_fst_attempts (s : GWS) :
    (scheduleReconnect s).1.reconnectAttempts = s.reconnectAttempts + 1 := by
  simp [scheduleReconnect, clearReconnectTimer_attempts]

theorem scheduleReconnect_fst_manual (s : GWS) :
    (scheduleReconnect s).1.isManualDisconnect = s.isManualDisconnect := by
  simp [scheduleReconnect, clearReconnectTimer_manual]

theorem scheduleReconnect_snd (s : GWS) :
    (scheduleReconnect s).2 =
      [Act.scheduled (s.reconnectAttempts + 1)
        (reconnectDelayMs (s.reconnectAttempts + 1))] := by
  simp [scheduleReconnect, clearReconnectTimer_attempts]

theorem flushSplit_append (q : List Nat) :
    ∀ oks, (flushSplit q oks).1 ++ (flushSplit q oks).2 = q := by
  induction q with
  | nil => intro oks; simp [flushSplit]
  | cons m rest ih =>
      intro oks
      cases h : oks.headD true <;> simp only [flushSplit, h] <;> simp [ih]

theorem sentFromQueueList_map (l : List Nat) :
    sentFromQueueList (l.map Act.sentFromQueue) = l := by
  induction l with
  | nil => rfl
  | cons m rest ih => simpa [sentFromQueueList] using ih

theorem sentList_map_sentFromQueue (l : List Nat) :
    sentList (l.map Act.sentFromQueue) = l := by
  induction l with
  | nil => rfl
  | cons m rest ih => simpa [sentList] using ih

theorem pushedList_map_sentFromQueue (l : List Nat) :
    pushedList (l.map Act.sentFromQueue) = [] := by
  induction l with
  | nil => rfl
  | cons m rest ih => simp [pushedList, ih]

theorem markClosed_queue (s : GWS) : (markClosed s).queue = s.queue := by
  unfold markClosed; cases s.wsState <;> rfl

theorem markClosed_attempts (s : GWS) :
    (markClosed s).reconnectAttempts = s.reconnectAttempts := by
  unfold markClosed; cases s.wsState <;> rfl

theorem markClosed_manual (s : GWS) :
    (markClosed s).isManualDisconnect = s.isManualDisconnect := by
  unfold markClosed; cases s.wsState <;> rfl

theorem markClosed_liveRec (s : GWS) :
    (markClosed s).liveReconnectTimers = s.liveReconnectTimers := by
  unfold markClosed; cases s.wsState <;> rfl

theorem markClosed_trackedRec (s : GWS) :
    (markClosed s).trackedReconnectTimer = s.trackedReconnectTimer := by
  unfold markClosed; cases s.wsState <;> rfl

theorem markClosed_liveHb (s : GWS) :
    (markClosed s).liveHeartbeatTimers = s.liveHeartbeatTimers := by
  unfold markClosed; cases s.wsState <;> rfl

theorem markClosed_trackedHb (s : GWS) :
    (markClosed s).trackedHeartbeatTimer = s.trackedHeartbeatTimer := by
  unfold markClosed; cases s.wsState <;> rfl

theorem step_scheduled_mem (s : GWS) (e : Ev) (k d : Nat)
    (h : Act.scheduled k d ∈ (step s e).2) :
    k = s.reconnectAttempts + 1 ∧ d = reconnectDelayMs k ∧
      s.reconnectAttempts < maxReconnectAttempts := by
  cases e with
  | connect => simp [step, connectStep, createWebSocket] at h
  | wsOpen oks =>
      simp only [step, onOpen] at h
      split at h
      · simp [List.mem_map] at h
      · simp at h
  | wsClose =>
      simp only [step, onClose] at h
      split at h
      · rename_i hc
        rw [scheduleReconnect_snd] at h
        rw [markClosed_attempts, stopHeartbeat_attempts] at h
        simp at h
        obtain ⟨hk, hd⟩ := h
        have hlt : s.reconnectAttempts < maxReconnectAttempts := by
          rw [markClosed_attempts, stopHeartbeat_attempts, Bool.and_eq_true] at hc
          exact of_decide_eq_true hc.2
        exact ⟨hk, by rw [hk, hd], hlt⟩
      · simp at h
  | timerFire t =>
      simp only [step, timerFireStep] at h
      split at h <;> simp [createWebSocket] at h
  | hbTick t ok =>
      simp only [step, hbTickStep] at h
      split at h
      · split at h
        · split at h <;> simp at h
        · simp at h
      · simp at h
  | enqueue m ok =>
      simp only [step, enqueueStep] at h
      split at h
      · split at h <;> simp at h
      · simp at h
      · split at h
        · rename_i hc
          rw [scheduleReconnect_snd] at h
          simp at h
          obtain ⟨hk, hd⟩ := h
          have hlt : s.reconnectAttempts < maxReconnectAttempts := by
            rw [Bool.and_eq_true] at hc
            exact of_decide_eq_true hc.2
          exact ⟨hk, by rw [hk, hd], hlt⟩
        · simp at h
  | disconnect =>
      simp only [step, disconnectStep] at h
      split at h <;> simp at h

theorem step_attempts_le (s : GWS) (e : Ev) (he : ∀ oks, e ≠ Ev.wsOpen oks) :
    s.reconnectAttempts ≤ (step s e).1.reconnectAttempts := by
  cases e with
  | connect => simp [step, connectStep, createWebSocket]
  | wsOpen oks => exact absurd rfl (he oks)
  | wsClose =>
      simp only [step, onClose]
      split
      · rw [scheduleReconnect_fst_attempts, markClosed_attempts, stopHeartbeat_attempts]
        omega
      · rw [markClosed_attempts, stopHeartbeat_attempts]
  | timerFire t =>
      simp only [step, timerFireStep]
      split <;> simp [createWebSocket]
  | hbTick t ok =>
      simp only [step, hbTickStep]
      split
      · split
        · split <;> simp
        · simp
      · simp
  | enqueue m ok =>
      simp only [step, enqueueStep]
      split
      · split <;> simp
      · simp
      · split
        · rw [scheduleReconnect_fst_attempts]; simp
        · simp
  | disconnect =>
      simp only [step, disconnectStep]
      simp [clearReconnectTimer_attempts, stopHeartbeat_attempts]

theorem noOpenEv_cons (e : Ev) (rest : List Ev) :
    noOpenEv (e :: rest) = true ↔
      (∀ oks, e ≠ Ev.wsOpen oks) ∧ noOpenEv rest = true := by
  cases e <;> simp [noOpenEv]

theorem noConnectEv_cons (e : Ev) (rest : List Ev) :
    noConnectEv (e :: rest) = true ↔
      e ≠ Ev.connect ∧ noConnectEv rest = true := by
  cases e <;> simp [noConnectEv]

theorem run_no_scheduled_of_maxed (evs : List Ev) :
    ∀ s : GWS, maxReconnectAttempts ≤ s.reconnectAttempts → noOpenEv evs = true →
      ∀ k d, Act.scheduled k d ∉ (run s evs).2 := by
  induction evs with
  | nil => intro s _ _ k d h; simp [run] at h
  | cons e rest ih =>
      intro s hs hno k d h
      obtain ⟨he, hrest⟩ := (noOpenEv_cons e rest).1 hno
      simp only [run, List.mem_append] at h
      rcases h with h | h
      · obtain ⟨-, -, hlt⟩ := step_scheduled_mem s e k d h
        omega
      · exact ih (step s e).1 (le_trans hs (step_attempts_le s e he)) hrest k d h

theorem sentFromQueueList_append (a b : List Act) :
    sentFromQueueList (a ++ b) = sentFromQueueList a ++ sentFromQueueList b := by
  simp [sentFromQueueList, List.filterMap_append]

theorem sentList_append (a b : List Act) :
    sentList (a ++ b) = sentList a ++ sentList b := by
  simp [sentList, List.filterMap_append]

theorem pushedList_append (a b : List Act) :
    pushedList (a ++ b) = pushedList a ++ pushedList b := by
  simp [pushedList, List.filterMap_append]

theorem enqueueIds_cons (e : Ev) (rest : List Ev) :
    enqueueIds (e :: rest) = enqueueIds [e] ++ enqueueIds rest := by
  cases e <;> simp [enqueueIds]

theorem step_queue_sublist (s : GWS) (e : Ev) :
    List.Sublist (sentFromQueueList (step s e).2 ++ (step s e).1.queue)
      (s.queue ++ pushedList (step s e).2) := by
  cases e with
  | connect => simp [step, connectStep, createWebSocket, sentFromQueueList, pushedList]
  | wsOpen oks =>
      simp only [step, onOpen]
      split
      · simp [sentFromQueueList_map, pushedList_map_sentFromQueue, startHeartbeat_queue,
          flushSplit_append]
      · simp [sentFromQueueList, pushedList]
  | wsClose =>
      simp only [step, onClose]
      split <;>
        simp [scheduleReconnect_fst_queue, scheduleReconnect_snd, markClosed_queue,
          stopHeartbeat_queue, sentFromQueueList, pushedList]
  | timerFire t =>
      simp only [step, timerFireStep]
      split <;> simp [createWebSocket, sentFromQueueList, pushedList]
  | hbTick t ok =>
      simp only [step, hbTickStep]
      split
      · split
        · split <;> simp [sentFromQueueList, pushedList]
        · simp [sentFromQueueList, pushedList]
      · simp [sentFromQueueList, pushedList]
  | enqueue m ok =>
      simp only [step, enqueueStep]
      split
      · split <;> simp [sentFromQueueList, pushedList]
      · simp [sentFromQueueList, pushedList]
      · split
        · simp [scheduleReconnect_fst_queue, scheduleReconnect_snd, sentFromQueueList,
            pushedList]
        · simp [sentFromQueueList, pushedList]
  | disconnect =>
      simp only [step, disconnectStep]
      split <;> simp [sentFromQueueList, pushedList]

theorem run_queue_sublist (evs : List Ev) :
    ∀ s : GWS,
      List.Sublist (sentFromQueueList (run s evs).2 ++ (run s evs).1.queue)
        (s.queue ++ pushedList (run s evs).2) := by
  induction evs with
  | nil => intro s; simp [run, sentFromQueueList, pushedList]
  | cons e rest ih =>
      intro s
      simp only [run, sentFromQueueList_append, pushedList_append]
      have hstep := step_queue_sublist s e
      have hrest := ih (step s e).1
      have h1 :=
        (List.append_sublist_append_left (sentFromQueueList (step s e).2)).mpr hrest
      have h2 :=
        List.Sublist.append_right hstep (pushedList (run (step s e).1 rest).2)
      simp only [List.append_assoc] at h1 h2 ⊢
      exact h1.trans h2

theorem step_count (s : GWS) (e : Ev) (m : Nat) :
    (sentList (step s e).2).count m + ((step s e).1.queue.count m) ≤
      s.queue.count m + (enqueueIds [e]).count m := by
  cases e with
  | connect => simp [step, connectStep, createWebSocket, sentList, enqueueIds]
  | wsOpen oks =>
      simp only [step, onOpen]
      split
      · simp only [sentList_map_sentFromQueue, startHeartbeat_queue]
        simp only [enqueueIds, List.filterMap_nil, List.filterMap_cons]
        rw [← List.count_append, flushSplit_append]
        simp
      · simp [sentList, enqueueIds]
  | wsClose =>
      simp only [step, onClose]
      split <;>
        simp [scheduleReconnect_fst_queue, scheduleReconnect_snd, markClosed_queue,
          stopHeartbeat_queue, sentList, enqueueIds]
  | timerFire t =>
      simp only [step, timerFireStep]
      split <;> simp [createWebSocket, sentList, enqueueIds]
  | hbTick t ok =>
      simp only [step, hbTickStep]
      split
      · split
        · split <;> simp [sentList, enqueueIds]
        · simp [sentList, enqueueIds]
      · simp [sentList, enqueueIds]
  | enqueue m1 ok =>
      simp only [step, enqueueStep]
      split
      · split
        · simp [sentList, enqueueIds, List.count_append, List.count_singleton]
          omega
        · simp [sentList, enqueueIds, List.count_append]
      · simp [sentList, enqueueIds, List.count_append]
      · split
        · simp [scheduleReconnect_fst_queue, scheduleReconnect_snd, sentList, enqueueIds,
            List.count_append]
        · simp [sentList, enqueueIds, List.count_append]
  | disconnect =>
      simp only [step, disconnectStep]
      split <;> simp [sentList, enqueueIds]

theorem run_count (evs : List Ev) :
    ∀ (s : GWS) (m : Nat),
      (sentList (run s evs).2).count m + ((run s evs).1.queue.count m) ≤
        s.queue.count m + (enqueueIds evs).count m := by
  induction evs with
  | nil => intro s m; simp [run, sentList, enqueueIds]
  | cons e rest ih =>
      intro s m
      simp only [run, sentList_append]
      rw [enqueueIds_cons]
      have hstep := step_count s e m
      have hrest := ih (step s e).1 m
      simp only [List.count_append] at *
      omega

theorem stopHeartbeat_trackedHb_none (s : GWS) :
    (stopHeartbeat s).trackedHeartbeatTimer = none := by
  unfold stopHeartbeat
  split
  · rfl
  · rename_i htr; exact htr

theorem clearReconnectTimer_trackedRec_none (s : GWS) :
    (clearReconnectTimer s).trackedReconnectTimer = none := by
  unfold clearReconnectTimer
  split
  · rfl
  · rename_i htr; exact htr

theorem timersOk_stopHeartbeat (s : GWS) (h : timersOk s) :
    timersOk (stopHeartbeat s) := by
  obtain ⟨hr, hh⟩ := h
  unfold stopHeartbeat
  split
  · rename_i t htr
    refine ⟨hr, Or.inl ?_⟩
    rcases hh with hnil | ⟨t2, htr2, hlive⟩
    · simp [hnil]
    · rw [htr] at htr2
      injection htr2 with ht
      subst ht
      rw [hlive]
      simp
  · exact ⟨hr, hh⟩

theorem timersOk_clearReconnectTimer (s : GWS) (h : timersOk s) :
    timersOk (clearReconnectTimer s) := by
  obtain ⟨hr, hh⟩ := h
  unfold clearReconnectTimer
  split
  · rename_i t htr
    refine ⟨Or.inl ?_, hh⟩
    rcases hr with hnil | ⟨t2, htr2, hlive⟩
    · simp [hnil]
    · rw [htr] at htr2
      injection htr2 with ht
      subst ht
      rw [hlive]
      simp
  · exact ⟨hr, hh⟩

theorem stopHeartbeat_liveHb_nil (s : GWS) (h : timersOk s) :
    (stopHeartbeat s).liveHeartbeatTimers = [] := by
  rcases (timersOk_stopHeartbeat s h).2 with hnil | ⟨t, htr, _⟩
  · exact hnil
  · rw [stopHeartbeat_trackedHb_none] at htr; cases htr

theorem clearReconnectTimer_liveRec_nil (s : GWS) (h : timersOk s) :
    (clearReconnectTimer s).liveReconnectTimers = [] := by
  rcases (timersOk_clearReconnectTimer s h).1 with hnil | ⟨t, htr, _⟩
  · exact hnil
  · rw [clearReconnectTimer_trackedRec_none] at htr; cases htr

theorem timersOk_startHeartbeat (s : GWS) (h : timersOk s) :
    timersOk (startHeartbeat s) := by
  have h1 := timersOk_stopHeartbeat s h
  have hl := stopHeartbeat_liveHb_nil s h
  simp only [startHeartbeat]
  refine ⟨h1.1, Or.inr ⟨(stopHeartbeat s).nextTimerId, rfl, ?_⟩⟩
  rw [hl]
  simp

theorem timersOk_scheduleReconnect (s : GWS) (h : timersOk s) :
    timersOk (scheduleReconnect s).1 := by
  have h1 := timersOk_clearReconnectTimer s h
  have hl := clearReconnectTimer_liveRec_nil s h
  simp only [scheduleReconnect]
  refine ⟨Or.inr ⟨(clearReconnectTimer s).nextTimerId, rfl, ?_⟩, h1.2⟩
  rw [hl]
  simp

theorem timersOk_markClosed (s : GWS) (h : timersOk s) :
    timersOk (markClosed s) := by
  unfold timersOk
  rw [markClosed_liveRec, markClosed_trackedRec, markClosed_liveHb, markClosed_trackedHb]
  exact h

theorem timersOk_step (s : GWS) (e : Ev) (h : timersOk s) : timersOk (step s e).1 := by
  cases e with
  | connect => exact h
  | wsOpen oks =>
      simp only [step, onOpen]
      split
      · exact timersOk_startHeartbeat
          { s with wsState := some WSReady.opened, reconnectAttempts := 0 } h
      · exact h
  | wsClose =>
      simp only [step, onClose]
      split
      · exact timersOk_scheduleReconnect _ (timersOk_markClosed _ (timersOk_stopHeartbeat _ h))
      · exact timersOk_markClosed _ (timersOk_stopHeartbeat _ h)
  | timerFire t =>
      simp only [step, timerFireStep]
      split
      · rename_i ht
        refine ⟨Or.inl ?_, h.2⟩
        rcases h.1 with hnil | ⟨t2, htr, hlive⟩
        · rw [hnil] at ht; cases ht
        · rw [hlive] at ht
          simp at ht
          subst ht
          rw [hlive]
          simp [createWebSocket]
      · exact h
  | hbTick t ok =>
      simp only [step, hbTickStep]
      split
      · split
        · split <;> exact h
        · exact h
      · exact h
  | enqueue m ok =>
      simp only [step, enqueueStep]
      split
      · split
        · exact h
        · exact h
      · exact h
      · split
        · exact timersOk_scheduleReconnect { s with queue := s.queue ++ [m] } h
        · exact h
  | disconnect =>
      simp only [step, disconnectStep]
      exact timersOk_clearReconnectTimer _
        (timersOk_stopHeartbeat { s with isManualDisconnect := true } h)

theorem timersOk_init : timersOk initGWS := by
  constructor <;> exact Or.inl rfl

theorem timersOk_run (evs : List Ev) :
    ∀ s : GWS, timersOk s → timersOk (run s evs).1 := by
  induction evs with
  | nil => intro s h; exact h
  | cons e rest ih => intro s h; exact ih (step s e).1 (timersOk_step s e h)

theorem disconnect_clears (s : GWS) (h : timersOk s) :
    (step s Ev.disconnect).1.queue = [] ∧
      (step s Ev.disconnect).1.isManualDisconnect = true ∧
      (step s Ev.disconnect).1.liveReconnectTimers = [] ∧
      (step s Ev.disconnect).1.liveHeartbeatTimers = [] ∧
      (step s Ev.disconnect).1.trackedReconnectTimer = none ∧
      (step s Ev.disconnect).1.trackedHeartbeatTimer = none := by
  have h1 : timersOk (stopHeartbeat { s with isManualDisconnect := true }) :=
    timersOk_stopHeartbeat _ h
  refine ⟨rfl, ?_, ?_, ?_, ?_, ?_⟩
  · simp only [step, disconnectStep]
    rw [clearReconnectTimer_manual, stopHeartbeat_manual]
  · simp only [step, disconnectStep]
    exact clearReconnectTimer_liveRec_nil _ h1
  · simp only [step, disconnectStep]
    rw [clearReconnectTimer_liveHb]
    exact stopHeartbeat_liveHb_nil { s with isManualDisconnect := true } h
  · simp only [step, disconnectStep]
    exact clearReconnectTimer_trackedRec_none _
  · simp only [step, disconnectStep]
    rw [clearReconnectTimer_trackedHb]
    exact stopHeartbeat_trackedHb_none _

theorem step_manual_no_reconnect (s : GWS) (e : Ev) (he : e ≠ Ev.connect)
    (hm : s.isManualDisconnect = true) (hl : s.liveReconnectTimers = []) :
    (step s e).1.isManualDisconnect = true ∧
      (step s e).1.liveReconnectTimers = [] ∧
      (∀ k d, Act.scheduled k d ∉ (step s e).2) ∧
      Act.wsCreated ∉ (step s e).2 := by
  cases e with
  | connect => exact absurd rfl he
  | wsOpen oks =>
      simp only [step, onOpen]
      split
      · refine ⟨?_, ?_, ?_, ?_⟩
        · rw [startHeartbeat_manual]; exact hm
        · rw [startHeartbeat_liveRec]; exact hl
        · intro k d hmem
          simp [List.mem_map] at hmem
        · intro hmem
          simp [List.mem_map] at hmem
      · exact ⟨hm, hl, by intro k d hmem; simp at hmem, by intro hmem; simp at hmem⟩
  | wsClose =>
      simp only [step, onClose]
      have hmm : (markClosed (stopHeartbeat s)).isManualDisconnect = true := by
        rw [markClosed_manual, stopHeartbeat_manual]; exact hm
      rw [if_neg (by simp [hmm])]
      refine ⟨hmm, ?_, ?_, ?_⟩
      · rw [markClosed_liveRec, stopHeartbeat_liveRec]; exact hl
      · intro k d hmem; simp at hmem
      · intro hmem; simp at hmem
  | timerFire t =>
      simp only [step, timerFireStep]
      rw [if_neg (by rw [hl]; simp)]
      exact ⟨hm, hl, by intro k d hmem; simp at hmem, by intro hmem; simp at hmem⟩
  | hbTick t ok =>
      simp only [step, hbTickStep]
      split
      · split
        · split <;>
            exact ⟨hm, hl, by intro k d hmem; simp at hmem, by intro hmem; simp at hmem⟩
        · exact ⟨hm, hl, by intro k d hmem; simp at hmem, by intro hmem; simp at hmem⟩
      · exact ⟨hm, hl, by intro k d hmem; simp at hmem, by intro hmem; simp at hmem⟩
  | enqueue m ok =>
      simp only [step, enqueueStep]
      split
      · split
        · exact ⟨hm, hl, by intro k d hmem; simp at hmem, by intro hmem; simp at hmem⟩
        · exact ⟨hm, hl, by intro k d hmem; simp at hmem, by intro hmem; simp at hmem⟩
      · exact ⟨hm, hl, by intro k d hmem; simp at hmem, by intro hmem; simp at hmem⟩
      · rw [if_neg (by simp [hm])]
        exact ⟨hm, hl, by intro k d hmem; simp at hmem, by intro hmem; simp at hmem⟩
  | disconnect =>
      simp only [step, disconnectStep]
      refine ⟨?_, ?_, ?_, ?_⟩
      · rw [clearReconnectTimer_manual, stopHeartbeat_manual]
      · exact clearReconnectTimer_liveRec_of_nil _ (by rw [stopHeartbeat_liveRec]; exact hl)
      · intro k d hmem
        split at hmem <;> simp at hmem
      · intro hmem
        split at hmem <;> simp at hmem

theorem run_manual_no_reconnect (evs : List Ev) :
    ∀ s : GWS, noConnectEv evs = true → s.isManualDisconnect = true →
      s.liveReconnectTimers = [] →
      (∀ k d, Act.scheduled k d ∉ (run s evs).2) ∧
        Act.wsCreated ∉ (run s evs).2 ∧
        (run s evs).1.isManualDisconnect = true ∧
        (run s evs).1.liveReconnectTimers = [] := by
  induction evs with
  | nil =>
      intro s _ hm hl
      exact ⟨by intro k d hmem; simp [run] at hmem, by intro hmem; simp [run] at hmem, hm, hl⟩
  | cons e rest ih =>
      intro s hno hm hl
      obtain ⟨he, hrest⟩ := (noConnectEv_cons e rest).1 hno
      obtain ⟨hm1, hl1, hsch1, hcr1⟩ := step_manual_no_reconnect s e he hm hl
      obtain ⟨hsch2, hcr2, hm2, hl2⟩ := ih (step s e).1 hrest hm1 hl1
      refine ⟨?_, ?_, hm2, hl2⟩
      · intro k d hmem
        simp only [run, List.mem_append] at hmem
        rcases hmem with hmem | hmem
        · exact hsch1 k d hmem
        · exact hsch2 k d hmem
      · intro hmem
        simp only [run, List.mem_append] at hmem
        rcases hmem with hmem | hmem
        · exact hcr1 hmem
        · exact hcr2 hmem

theorem run_append (l1 : List Ev) :
    ∀ (s : GWS) (l2 : List Ev),
      run s (l1 ++ l2) =
        ((run (run s l1).1 l2).1, (run s l1).2 ++ (run (run s l1).1 l2).2) := by
  induction l1 with
  | nil => intro s l2; simp [run]
  | cons e rest ih =>
      intro s l2
      simp only [List.cons_append, run, List.append_eq]
      rw [ih]
      simp [List.append_assoc]

/-- C2 (amended): in the `GameWebSocket` code, every scheduled reconnect for
(1-indexed) attempt `k` waits exactly `min(1000·2^(k−1), 30000)` milliseconds,
and concretely attempt 1 waits 1000 ms, attempt 6 would wait the 30000 ms cap,
and no delay ever exceeds 30000 ms; scheduling only ever happens while
`reconnectAttempts < 5`; and from any state in which `reconnectAttempts` has
reached 5, no further reconnect is ever scheduled as long as no successful
transport open occurs.  The `onopen` handler resets `reconnectAttempts` to 0,
which is why the original claim's unconditional "never again" fails (see the
counterexample). -/
theorem c2_backoff_schedule :
    (∀ (s : GWS) (e : Ev) (k d : Nat), Act.scheduled k d ∈ (step s e).2 →
        k = s.reconnectAttempts + 1 ∧
          d = min (reconnectBaseDelayMs * 2 ^ (k - 1)) reconnectCapDelayMs ∧
          s.reconnectAttempts < maxReconnectAttempts) ∧
      (∀ (s : GWS) (evs : List Ev), maxReconnectAttempts ≤ s.reconnectAttempts →
        noOpenEv evs = true → ∀ k d, Act.scheduled k d ∉ (run s evs).2) ∧
      (reconnectDelayMs 1 = 1000 ∧ reconnectDelayMs 6 = 30000 ∧
        ∀ k, reconnectDelayMs k ≤ 30000) := by
  refine ⟨?_, ?_, by decide, by decide, ?_⟩
  · intro s e k d h
    obtain ⟨hk, hd, hlt⟩ := step_scheduled_mem s e k d h
    exact ⟨hk, by rw [hd, reconnectDelayMs], hlt⟩
  · exact fun s evs h1 h2 => run_no_scheduled_of_maxed evs s h1 h2
  · intro k
    exact Nat.min_le_right (reconnectBaseDelayMs * 2 ^ (k - 1)) 30000

/-- Witness for C2: the first transport close schedules attempt 1 with a
1000 ms delay, and a state whose counter is at the maximum schedules nothing
on a further close. -/
theorem c2_backoff_schedule_witness :
    (1 = initGWS.reconnectAttempts + 1 ∧
        1000 = min (reconnectBaseDelayMs * 2 ^ (1 - 1)) reconnectCapDelayMs ∧
        initGWS.reconnectAttempts < maxReconnectAttempts) ∧
      Act.scheduled 1 1000 ∉
        (run { initGWS with reconnectAttempts := 5 } [Ev.wsClose]).2 :=
  ⟨c2_backoff_schedule.1 initGWS Ev.wsClose 1 1000 (by decide),
   c2_backoff_schedule.2.1 { initGWS with reconnectAttempts := 5 } [Ev.wsClose]
     (by decide) (by decide) 1 1000⟩

/-- C2 counterexample: after five failed reconnects `reconnectAttempts`
reaches 5 (= `maxReconnectAttempts`); if the fifth attempt's socket then opens
successfully, the `onopen` handler resets `reconnectAttempts` to 0, and a
subsequent transport close schedules a reconnect again (attempt 1, 1000 ms) —
refuting the claim that once the counter has reached 5 no further reconnect is
ever scheduled. -/
theorem c2_reset_counterexample :
    (run initGWS [Ev.connect, Ev.wsClose, Ev.timerFire 0, Ev.wsClose, Ev.timerFire 1,
        Ev.wsClose, Ev.timerFire 2, Ev.wsClose, Ev.timerFire 3, Ev.wsClose,
        Ev.timerFire 4]).1.reconnectAttempts = maxReconnectAttempts ∧
      (run (run initGWS [Ev.connect, Ev.wsClose, Ev.timerFire 0, Ev.wsClose,
          Ev.timerFire 1, Ev.wsClose, Ev.timerFire 2, Ev.wsClose, Ev.timerFire 3,
          Ev.wsClose, Ev.timerFire 4]).1 [Ev.wsOpen []]).1.reconnectAttempts = 0 ∧
      Act.scheduled 1 1000 ∈
        (run (run initGWS [Ev.connect, Ev.wsClose, Ev.timerFire 0, Ev.wsClose,
          Ev.timerFire 1, Ev.wsClose, Ev.timerFire 2, Ev.wsClose, Ev.timerFire 3,
          Ev.wsClose, Ev.timerFire 4]).1 [Ev.wsOpen [], Ev.wsClose]).2 := by
  decide

/-- C3: the outbound queue is FIFO under churn: a flush delivers a prefix of
the queue and leaves exactly the remainder (a failed send keeps its payload at
the front); over any event trace, the payloads delivered from the queue form a
subsequence of the payloads pushed to the queue (original enqueue order, no
reordering); and when enqueued ids are distinct, no payload is ever delivered
twice, across any number of reconnect cycles. -/
theorem c3_queue_fifo :
    (∀ (q : List Nat) (oks : List Bool),
        (flushSplit q oks).1 ++ (flushSplit q oks).2 = q) ∧
      (∀ evs : List Ev,
        List.Sublist (sentFromQueueList (run initGWS evs).2)
          (pushedList (run initGWS evs).2)) ∧
      (∀ (evs : List Ev) (m : Nat), (enqueueIds evs).count m ≤ 1 →
        (sentList (run initGWS evs).2).count m ≤ 1) := by
  refine ⟨flushSplit_append, ?_, ?_⟩
  · intro evs
    have h := run_queue_sublist evs initGWS
    have h0 : initGWS.queue = ([] : List Nat) := rfl
    rw [h0, List.nil_append] at h
    exact List.Sublist.trans (List.sublist_append_left _ _) h
  · intro evs m hm
    have h := run_count evs initGWS m
    have h0 : initGWS.queue = ([] : List Nat) := rfl
    rw [h0] at h
    simp only [List.count_nil, Nat.zero_add] at h
    omega

/-- Witness for C3: a payload queued while connecting is delivered exactly
once after the transport opens. -/
theorem c3_queue_fifo_witness :
    (enqueueIds [Ev.connect, Ev.enqueue 7 true, Ev.wsOpen []]).count 7 ≤ 1 ∧
      (sentList (run initGWS [Ev.connect, Ev.enqueue 7 true, Ev.wsOpen []]).2).count 7 ≤ 1 :=
  ⟨by decide,
   c3_queue_fifo.2.2 [Ev.connect, Ev.enqueue 7 true, Ev.wsOpen []] 7 (by decide)⟩

/-- C4: `disconnect()` is terminal: it sets the manual flag, clears the
outbound queue, cancels the pending reconnect timer and heartbeat, and
afterwards — under any further events that are not a new explicit
`connect()` call — no reconnect is ever scheduled and no transport is ever
re-created, neither by a late transport close event nor by a later enqueue. -/
theorem c4_manual_disconnect_terminal :
    ∀ evs1 evs2 : List Ev, noConnectEv evs2 = true →
      ((run initGWS (evs1 ++ [Ev.disconnect])).1.isManualDisconnect = true ∧
        (run initGWS (evs1 ++ [Ev.disconnect])).1.queue = [] ∧
        (run initGWS (evs1 ++ [Ev.disconnect])).1.liveReconnectTimers = [] ∧
        (run initGWS (evs1 ++ [Ev.disconnect])).1.liveHeartbeatTimers = [] ∧
        (run initGWS (evs1 ++ [Ev.disconnect])).1.trackedReconnectTimer = none) ∧
      (∀ k d, Act.scheduled k d ∉
        (run (run initGWS (evs1 ++ [Ev.disconnect])).1 evs2).2) ∧
      Act.wsCreated ∉ (run (run initGWS (evs1 ++ [Ev.disconnect])).1 evs2).2 := by
  intro evs1 evs2 hno
  have hstate : (run initGWS (evs1 ++ [Ev.disconnect])).1 =
      (step (run initGWS evs1).1 Ev.disconnect).1 := by
    rw [run_append]
    simp [run]
  have hT : timersOk (run initGWS evs1).1 := timersOk_run evs1 initGWS timersOk_init
  have hc := disconnect_clears (run initGWS evs1).1 hT
  rw [hstate]
  have hrun := run_manual_no_reconnect evs2 _ hno hc.2.1 hc.2.2.1
  exact ⟨⟨hc.2.1, hc.1, hc.2.2.1, hc.2.2.2.1, hc.2.2.2.2.1⟩, hrun.1, hrun.2.1⟩

/-- Witness for C4: connect then disconnect; a stray close event plus an
enqueue afterwards re-create nothing. -/
theorem c4_manual_disconnect_witness :
    noConnectEv [Ev.wsClose, Ev.enqueue 3 true] = true ∧
      (run initGWS ([Ev.connect] ++ [Ev.disconnect])).1.queue = [] ∧
      Act.wsCreated ∉
        (run (run initGWS ([Ev.connect] ++ [Ev.disconnect])).1
          [Ev.wsClose, Ev.enqueue 3 true]).2 :=
  ⟨by decide,
   (c4_manual_disconnect_terminal [Ev.connect] [Ev.wsClose, Ev.enqueue 3 true]
     (by decide)).1.2.1,
   (c4_manual_disconnect_terminal [Ev.connect] [Ev.wsClose, Ev.enqueue 3 true]
     (by decide)).2.2⟩

/-- C6 counterexample: on a concretely reachable open connection, a failed
heartbeat send leaves the instance state completely unchanged and emits only
the logged `pingFailed`: it does not re-queue anything and does not enter the
reconnect path, refuting the claim that a heartbeat send failure is treated
like a transport failure. -/
theorem c6_heartbeat_counterexample :
    (step (run initGWS [Ev.connect, Ev.wsOpen []]).1 (Ev.hbTick 0 false)).1 =
        (run initGWS [Ev.connect, Ev.wsOpen []]).1 ∧
      (step (run initGWS [Ev.connect, Ev.wsOpen []]).1 (Ev.hbTick 0 false)).2 =
        [Act.pingFailed] := by
  decide

/-- C6 (amended): while the connection is open the heartbeat sends a `ping`
on its 30000 ms interval, but a failure to send it is caught and logged only:
the state is unchanged — no re-queue, no reconnect scheduling. -/
theorem c6_heartbeat_amended :
    heartbeatIntervalMs = 30000 ∧
      (∀ (s : GWS) (t : Nat), t ∈ s.liveHeartbeatTimers →
        s.wsState = some WSReady.opened →
        step s (Ev.hbTick t true) = (s, [Act.pingSent]) ∧
          step s (Ev.hbTick t false) = (s, [Act.pingFailed])) := by
  refine ⟨rfl, ?_⟩
  intro s t ht hw
  constructor <;> simp [step, hbTickStep, ht, hw]

/-- Witness for C6 (amended): the heartbeat armed by a successful open sends
a ping on tick. -/
theorem c6_heartbeat_witness :
    (0 ∈ (run initGWS [Ev.connect, Ev.wsOpen []]).1.liveHeartbeatTimers ∧
        (run initGWS [Ev.connect, Ev.wsOpen []]).1.wsState = some WSReady.opened) ∧
      step (run initGWS [Ev.connect, Ev.wsOpen []]).1 (Ev.hbTick 0 true) =
        ((run initGWS [Ev.connect, Ev.wsOpen []]).1, [Act.pingSent]) :=
  ⟨⟨by decide, by decide⟩,
   (c6_heartbeat_amended.2 (run initGWS [Ev.connect, Ev.wsOpen []]).1 0
     (by decide) (by decide)).1⟩

/-- C10: at every reachable point of a `GameWebSocket`'s lifetime there is at
most one live reconnect timer and at most one live heartbeat interval:
`scheduleReconnect` clears the tracked timer before arming a new one and
`startHeartbeat` stops the existing interval before starting a new one, so
timers never accumulate. -/
theorem c10_single_timer :
    ∀ evs : List Ev,
      (run initGWS evs).1.liveReconnectTimers.length ≤ 1 ∧
        (run initGWS evs).1.liveHeartbeatTimers.length ≤ 1 := by
  intro evs
  have h := timersOk_run evs initGWS timersOk_init
  constructor
  · rcases h.1 with hnil | ⟨t, _, hl⟩
    · rw [hnil]; simp
    · rw [hl]; simp
  · rcases h.2 with hnil | ⟨t, _, hl⟩
    · rw [hnil]; simp
    · rw [hl]; simp

theorem runLoads_count_le (evs : List (String × Bool)) :
    ∀ (reg : List String) (sid : String),
      (runLoads reg evs).2.count sid ≤ (if reg.contains sid = true then 0 else 1) := by
  induction evs with
  | nil =>
      intro reg sid
      simp only [runLoads, List.count_nil]
      split <;> omega
  | cons p rest ih =>
      obtain ⟨s1, b⟩ := p
      intro reg sid
      simp only [runLoads, loadStep]
      split
      · rename_i hcond
        rw [Bool.and_eq_true] at hcond
        have hnotin : reg.contains s1 = false := by
          have h2 := hcond.2
          rwa [Bool.not_eq_true'] at h2
        simp only [if_true, List.count_append]
        by_cases hsid : s1 = sid
        · subst hsid
          have hih := ih (s1 :: reg) s1
          have hc : (s1 :: reg).contains s1 = true := by simp
          rw [hc] at hih
          simp only [if_true] at hih
          rw [hnotin]
          have h1 : List.count s1 [s1] = 1 := by simp
          simp only [Bool.false_eq_true, if_false]
          omega
        · have hih := ih (s1 :: reg) sid
          have hbne : (sid == s1) = false := by
            simp only [beq_eq_false_iff_ne, ne_eq]
            exact fun h => hsid h.symm
          have hc : (s1 :: reg).contains sid = reg.contains sid := by
            simp only [List.contains_cons, hbne, Bool.false_or]
          rw [hc] at hih
          have h0 : List.count sid [s1] = 0 := by
            rw [List.count_eq_zero, List.mem_singleton]
            exact fun h => hsid h.symm
          omega
      · simp only [if_false, Bool.false_eq_true, List.nil_append]
        exact ih reg sid

/-- C5: the one-shot `initial_story` intent is issued at most once per client
process and session id: `loadSession` requests it exactly when the fetched
session has no messages and the id is not yet in the process-wide registry,
records the id in the registry upon requesting, and over any sequence of
`loadSession` passes a given session id is requested at most once. -/
theorem c5_idempotent_init :
    (∀ (reg : List String) (sid : String) (b : Bool),
        ((loadStep reg sid b).2 = true ↔ (b = true ∧ reg.contains sid = false)) ∧
          (loadStep reg sid b).1.contains sid =
            (reg.contains sid || (loadStep reg sid b).2)) ∧
      (∀ (evs : List (String × Bool)) (sid : String),
        (runLoads [] evs).2.count sid ≤ 1) := by
  constructor
  · intro reg sid b
    constructor
    · unfold loadStep
      split
      · rename_i hcond
        rw [Bool.and_eq_true, Bool.not_eq_true'] at hcond
        exact iff_of_true rfl hcond
      · rename_i hcond
        rw [Bool.and_eq_true, Bool.not_eq_true'] at hcond
        simpa using hcond
    · unfold loadStep
      split
      · simp
      · simp
  · intro evs sid
    have h := runLoads_count_le evs [] sid
    simpa using h

/-- Witness for C5: on an empty registry and an empty session, the guard
fires; a single-pass trace requests the session at most once. -/
theorem c5_idempotent_init_witness :
    ((loadStep [] "s1" true).2 = true ↔
        (true = true ∧ ([] : List String).contains "s1" = false)) ∧
      (runLoads [] [("s1", true), ("s1", true)]).2.count "s1" ≤ 1 :=
  ⟨(c5_idempotent_init.1 [] "s1" true).1,
   c5_idempotent_init.2 [("s1", true), ("s1", true)] "s1"⟩

/-- C7: an `error` envelope is surfaced to the user — the visible error text
is set (to `payload.message` when it is a string, otherwise to the default
text), the in-progress streaming content, loading flag and loading message
are cleared — and the handler requests no action against the connection: for
every envelope the only action it can emit is a session reload, never a
close or disconnect of the transport. -/
theorem c7_error_nonfatal :
    (∀ (s : UIState) (m : Option String),
        (handleWebsocketMessage s (ServerMsg.errorEnvelope m)).1.visualizationError =
            some (m.getD defaultStreamErrorText) ∧
          (handleWebsocketMessage s (ServerMsg.errorEnvelope m)).1.streaming = "" ∧
          (handleWebsocketMessage s (ServerMsg.errorEnvelope m)).1.isLoading = false ∧
          (handleWebsocketMessage s (ServerMsg.errorEnvelope m)).1.loadingMessage = "" ∧
          (handleWebsocketMessage s (ServerMsg.errorEnvelope m)).2 = []) ∧
      (∀ (s : UIState) (msg : ServerMsg),
        (handleWebsocketMessage s msg).2 = [] ∨
          (handleWebsocketMessage s msg).2 = [UIAct.reloadSession]) := by
  constructor
  · intro s m
    exact ⟨rfl, rfl, rfl, rfl, rfl⟩
  · intro s msg
    cases msg <;> simp [handleWebsocketMessage]

/-- Witness for C7: a concrete error envelope sets the error text and emits
no connection action. -/
theorem c7_error_nonfatal_witness :
    (handleWebsocketMessage
        { messages := [], streaming := "abc", isLoading := true,
          loadingMessage := "x", visualizationError := none }
        (ServerMsg.errorEnvelope (some "boom"))).1.visualizationError =
      some ((some "boom").getD defaultStreamErrorText) :=
  (c7_error_nonfatal.1
    { messages := [], streaming := "abc", isLoading := true,
      loadingMessage := "x", visualizationError := none } (some "boom")).1

theorem dictGet_dictSet_self (m : List (String × Nat)) (k : String) (v : Nat) :
    dictGet (dictSet m k v) k = some v := by
  induction m with
  | nil => simp [dictSet, dictGet]
  | cons p rest ih =>
      obtain ⟨k1, v1⟩ := p
      simp only [dictSet]
      split
      · simp [dictGet]
      · rename_i hne
        simp only [dictGet]
        rw [if_neg hne]
        exact ih

theorem mem_keys_dictSet (m : List (String × Nat)) (k : String) (v : Nat) (a : String) :
    a ∈ (dictSet m k v).map Prod.fst ↔ a ∈ m.map Prod.fst ∨ a = k := by
  induction m with
  | nil => simp [dictSet]
  | cons p rest ih =>
      obtain ⟨k1, v1⟩ := p
      simp only [dictSet]
      split
      · rename_i heq
        subst heq
        simp
        tauto
      · simp only [List.map_cons, List.mem_cons, ih]
        tauto

theorem dictSet_keys_nodup (m : List (String × Nat)) (k : String) (v : Nat)
    (h : (m.map Prod.fst).Nodup) : ((dictSet m k v).map Prod.fst).Nodup := by
  induction m with
  | nil => simp [dictSet]
  | cons p rest ih =>
      obtain ⟨k1, v1⟩ := p
      simp only [List.map_cons, List.nodup_cons] at h
      simp only [dictSet]
      split
      · rename_i heq
        subst heq
        simp only [List.map_cons, List.nodup_cons]
        exact h
      · rename_i hne
        simp only [List.map_cons, List.nodup_cons]
        refine ⟨?_, ih h.2⟩
        rw [mem_keys_dictSet]
        rintro (hmem | heq)
        · exact h.1 hmem
        · exact hne heq

theorem dictPop_keys_sublist (m : List (String × Nat)) (k : String) :
    List.Sublist ((dictPop m k).map Prod.fst) (m.map Prod.fst) := by
  induction m with
  | nil => simp [dictPop]
  | cons p rest ih =>
      obtain ⟨k1, v1⟩ := p
      simp only [dictPop]
      split
      · exact List.sublist_cons_self _ _
      · simp only [List.map_cons]
        exact List.Sublist.cons₂ _ ih

theorem hubSendChunk_fst (m : List (String × Nat)) (sid : String) (chunk : String) :
    (hubSendChunk m sid chunk).1 = m := by
  unfold hubSendChunk
  split <;> rfl

theorem runHub_keys_nodup (ops : List HubOp) :
    ∀ m : List (String × Nat), (m.map Prod.fst).Nodup →
      ((runHub m ops).1.map Prod.fst).Nodup := by
  induction ops with
  | nil => intro m h; exact h
  | cons op rest ih =>
      intro m h
      cases op with
      | register sid ws =>
          exact ih _ (dictSet_keys_nodup m sid ws h)
      | unregister sid =>
          exact ih _ (List.Nodup.sublist (dictPop_keys_sublist m sid) h)
      | emit sid chunk =>
          simp only [runHub, hubStep]
          rw [hubSendChunk_fst]
          exact ih m h

theorem runHub_append (l1 : List HubOp) :
    ∀ (m : List (String × Nat)) (l2 : List HubOp),
      runHub m (l1 ++ l2) =
        ((runHub (runHub m l1).1 l2).1, (runHub m l1).2 ++ (runHub (runHub m l1).1 l2).2) := by
  induction l1 with
  | nil => intro m l2; simp [runHub]
  | cons op rest ih =>
      intro m l2
      simp only [List.cons_append, runHub, List.append_eq]
      rw [ih]
      simp [List.append_assoc]

/-- C8 counterexample: registering a second transport for a session id that
already holds one simply overwrites the registry entry; the prior transport
receives no close — the action log of the second `connect` is exactly the
acceptance of the new socket, refuting the claim that the prior transport is
closed upon binding the new one. -/
theorem c8_register_counterexample :
    (hubConnect [("s", 1)] "s" 2).2 = [HubAct.accepted 2] ∧
      HubAct.closedPrior 1 ∉ (hubConnect [("s", 1)] "s" 2).2 ∧
      (hubConnect [("s", 1)] "s" 2).1 = [("s", 2)] := by
  decide

/-- C8 (amended): `register` replaces any prior binding, so the registry
always holds at most one transport per session id (its keys stay nodup) and
after a `register(sid, ws)` the binding for `sid` is exactly `ws` (last
register wins); the prior transport, however, is dropped without being
closed. -/
theorem c8_register_replaces :
    (∀ ops : List HubOp, ((runHub [] ops).1.map Prod.fst).Nodup) ∧
      (∀ (ops : List HubOp) (sid : String) (ws : Nat),
        dictGet (runHub [] (ops ++ [HubOp.register sid ws])).1 sid = some ws) := by
  constructor
  · intro ops
    exact runHub_keys_nodup ops [] (by simp)
  · intro ops sid ws
    rw [runHub_append]
    simp only [runHub, hubStep, hubConnect]
    exact dictGet_dictSet_self _ sid ws

/-- Witness for C8 (amended): after two registrations for the same id the
binding is the second socket and the registry has one entry per id. -/
theorem c8_register_replaces_witness :
    dictGet (runHub [] ([HubOp.register "s" 1] ++ [HubOp.register "s" 2])).1 "s" = some 2 :=
  c8_register_replaces.2 [HubOp.register "s" 1] "s" 2

/-- C9: when the user has not edited the version field, the version sent by
the scenario save handler depends on the stored value's type: a stored finite
numeric version `v` yields `version = v + 1`; a stored string version whose
`parseFloat` is a finite `f` yields `version = Math.floor(f) + 1`; and a
stored string whose `parseFloat` is NaN yields a payload with no `version`
key at all. -/
theorem c9_scenario_version_bump :
    (∀ v : ℚ, handleSaveVersionField none (some (ScenVal.num (JSNum.finite v))) =
        some (ScenVal.num (JSNum.finite (v + 1)))) ∧
      (∀ (s : String) (f : ℚ), jsParseFloat s = JSNum.finite f →
        handleSaveVersionField none (some (ScenVal.str s)) =
          some (ScenVal.num (JSNum.finite ((Rat.floor f : ℚ) + 1)))) ∧
      (∀ s : String, jsParseFloat s = JSNum.nan →
        handleSaveVersionField none (some (ScenVal.str s)) = none) := by
  refine ⟨?_, ?_, ?_⟩
  · intro v; rfl
  · intro s f h
    simp [handleSaveVersionField, bumpedScenarioVersion, h, jsIsNaN, jsFloorNum, jsAddOne]
  · intro s h
    simp [handleSaveVersionField, bumpedScenarioVersion, h, jsIsNaN]

/-- Witness for C9: stored version `"2.5"` parses to 5/2 and is sent as
`floor(5/2) + 1 = 3`; stored version `"abc"` parses to NaN and the payload
carries no version key; stored numeric 7 is sent as 8. -/
theorem c9_scenario_version_bump_witness :
    (jsParseFloat "2.5" = JSNum.finite ((5 : ℚ) / 2) ∧
        handleSaveVersionField none (some (ScenVal.str "2.5")) =
          some (ScenVal.num (JSNum.finite ((Rat.floor ((5 : ℚ) / 2) : ℚ) + 1)))) ∧
      (jsParseFloat "abc" = JSNum.nan ∧
        handleSaveVersionField none (some (ScenVal.str "abc")) = none) ∧
      handleSaveVersionField none (some (ScenVal.num (JSNum.finite (7 : ℚ)))) =
        some (ScenVal.num (JSNum.finite ((7 : ℚ) + 1))) :=
  ⟨⟨by with_unfolding_all decide,
    c9_scenario_version_bump.2.1 "2.5" ((5 : ℚ) / 2) (by with_unfolding_all decide)⟩,
   ⟨by decide, c9_scenario_version_bump.2.2 "abc" (by decide)⟩,
   c9_scenario_version_bump.1 (7 : ℚ)⟩

theorem length_filter_set (p : Attempt → Bool) (l : List Attempt) :
    ∀ (i : Nat) (a x : Attempt), l[i]? = some a →
      ((l.set i x).filter p).length + (if p a then 1 else 0) =
        (l.filter p).length + (if p x then 1 else 0) := by
  induction l with
  | nil => intro i a x h; simp at h
  | cons b t ih =>
      intro i a x h
      cases i with
      | zero =>
          have hb : b = a := by simpa using h
          subst hb
          simp only [List.set_cons_zero, List.filter_cons]
          cases hp : p b <;> cases hx : p x <;> simp [hp, hx]
      | succ j =>
          simp only [List.getElem?_cons_succ] at h
          have hih := ih j a x h
          simp only [List.set_cons_succ, List.filter_cons]
          cases hp : p b <;> simp [hp] <;> omega

theorem filter_length_set_same (p : Attempt → Bool) (l : List Attempt) (i : Nat)
    (a x : Attempt) (hget : l[i]? = some a) (hpx : p x = p a) :
    ((l.set i x).filter p).length = (l.filter p).length := by
  have hfs := length_filter_set p l i a x hget
  rw [hpx] at hfs
  omega

theorem filter_length_set_flip (p : Attempt → Bool) (l : List Attempt) (i : Nat)
    (a x : Attempt) (hget : l[i]? = some a) (hpa : p a = false) (hpx : p x = true) :
    ((l.set i x).filter p).length = (l.filter p).length + 1 := by
  have hfs := length_filter_set p l i a x hget
  rw [hpa, hpx] at hfs
  simp at hfs
  omega

theorem coordInv_init (v n : Nat) : coordInv v n (initCoord v n) := by
  refine ⟨by simp [initCoord], by simp [initCoord], by simp [initCoord], ?_, ?_, ?_⟩
  · simp [initCoord, acceptedCount, List.filter_replicate]
  · intro a ha hst
    rw [List.eq_of_mem_replicate ha] at hst
    cases hst
  · intro a ha _
    rw [List.eq_of_mem_replicate ha]
    simp [maxWriteRetries]

theorem coordInv_step (v0 n : Nat) (c : Coord) (i : Nat) (h : coordInv v0 n c) :
    coordInv v0 n (stepC c i) := by
  obtain ⟨hlen, hver, hlog, hacc, hexh, hrun⟩ := h
  unfold stepC
  split
  · exact ⟨hlen, hver, hlog, hacc, hexh, hrun⟩
  · rename_i a hget
    have hamem : a ∈ c.attempts := List.getElem?_mem hget
    split
    · -- read step: running attempt with no read takes a snapshot of the version
      rename_i hst hrv
      refine ⟨?_, hver, hlog, ?_, ?_, ?_⟩
      · rw [List.length_set]; exact hlen
      · show c.log.length =
          (List.filter (fun a => decide (a.status = AttStatus.accepted))
            (c.attempts.set i
              { status := a.status, readVer := some c.version,
                casTries := a.casTries })).length
        rw [filter_length_set_same (fun a => decide (a.status = AttStatus.accepted))
          c.attempts i a
          { status := a.status, readVer := some c.version, casTries := a.casTries }
          hget rfl]
        exact hacc
      · intro a1 ha1 hst1
        rcases List.mem_or_eq_of_mem_set ha1 with hm | he
        · exact hexh a1 hm hst1
        · subst he
          have hst2 : a.status = AttStatus.exhausted := hst1
          rw [hst] at hst2
          cases hst2
      · intro a1 ha1 hst1
        rcases List.mem_or_eq_of_mem_set ha1 with hm | he
        · exact hrun a1 hm hst1
        · subst he
          exact hrun a hamem hst
    · -- conditional write
      rename_i rv hst hrv
      split
      · -- CAS success: version advances, accept is logged
        rename_i hcas
        refine ⟨?_, ?_, ?_, ?_, ?_, ?_⟩
        · rw [List.length_set]; exact hlen
        · simp only [List.length_append, List.length_cons, List.length_nil]
          omega
        · simp only [List.length_append, List.length_cons, List.length_nil]
          rw [Nat.add_comm c.log.length 1, Nat.add_comm 1 c.log.length]
          rw [List.range_succ, List.map_append]
          rw [← hlog]
          simp only [List.map_cons, List.map_nil]
          have hrvv : rv = v0 + c.log.length := by rw [hcas, hver]
          rw [hrvv]
        · show (c.log ++ [(rv, rv + 1)]).length =
            (List.filter (fun a => decide (a.status = AttStatus.accepted))
              (c.attempts.set i
                { status := AttStatus.accepted, readVer := a.readVer,
                  casTries := a.casTries + 1 })).length
          rw [filter_length_set_flip (fun a => decide (a.status = AttStatus.accepted))
            c.attempts i a _ hget (by simp [hst]) (by simp)]
          have hacc2 : c.log.length =
            (List.filter (fun a => decide (a.status = AttStatus.accepted))
              c.attempts).length := hacc
          simp only [List.length_append, List.length_cons, List.length_nil]
          omega
        · intro a1 ha1 hst1
          rcases List.mem_or_eq_of_mem_set ha1 with hm | he
          · exact hexh a1 hm hst1
          · subst he
            have hst2 : AttStatus.accepted = AttStatus.exhausted := hst1
            cases hst2
        · intro a1 ha1 hst1
          rcases List.mem_or_eq_of_mem_set ha1 with hm | he
          · exact hrun a1 hm hst1
          · subst he
            have hst2 : AttStatus.accepted = AttStatus.running := hst1
            cases hst2
      · -- CAS failure
        rename_i hcas
        split
        · -- retry budget exhausted: surfaced as ConflictExhausted
          rename_i hex
          refine ⟨?_, hver, hlog, ?_, ?_, ?_⟩
          · rw [List.length_set]; exact hlen
          · show c.log.length =
              (List.filter (fun a => decide (a.status = AttStatus.accepted))
                (c.attempts.set i
                  { status := AttStatus.exhausted, readVer := a.readVer,
                    casTries := a.casTries + 1 })).length
            rw [filter_length_set_same (fun a => decide (a.status = AttStatus.accepted))
              c.attempts i a _ hget (by simp [hst])]
            exact hacc
          · intro a1 ha1 hst1
            rcases List.mem_or_eq_of_mem_set ha1 with hm | he
            · exact hexh a1 hm hst1
            · subst he
              have hle := hrun a hamem hst
              simp only
              omega
          · intro a1 ha1 hst1
            rcases List.mem_or_eq_of_mem_set ha1 with hm | he
            · exact hrun a1 hm hst1
            · subst he
              have hst2 : AttStatus.exhausted = AttStatus.running := hst1
              cases hst2
        · -- budget remains: clear the read and retry
          rename_i hex
          refine ⟨?_, hver, hlog, ?_, ?_, ?_⟩
          · rw [List.length_set]; exact hlen
          · show c.log.length =
              (List.filter (fun a => decide (a.status = AttStatus.accepted))
                (c.attempts.set i
                  { status := a.status, readVer := none,
                    casTries := a.casTries + 1 })).length
            rw [filter_length_set_same (fun a => decide (a.status = AttStatus.accepted))
              c.attempts i a
              { status := a.status, readVer := none, casTries := a.casTries + 1 }
              hget rfl]
            exact hacc
          · intro a1 ha1 hst1
            rcases List.mem_or_eq_of_mem_set ha1 with hm | he
            · exact hexh a1 hm hst1
            · subst he
              have hst2 : a.status = AttStatus.exhausted := hst1
              rw [hst] at hst2
              cases hst2
          · intro a1 ha1 hst1
            rcases List.mem_or_eq_of_mem_set ha1 with hm | he
            · exact hrun a1 hm hst1
            · subst he
              simp only
              omega
    · exact ⟨hlen, hver, hlog, hacc, hexh, hrun⟩

theorem coordInv_runC (v0 n : Nat) (sched : List Nat) :
    ∀ c : Coord, coordInv v0 n c → coordInv v0 n (runC c sched) := by
  induction sched with
  | nil => intro c h; exact h
  | cons i rest ih => intro c h; exact ih (stepC c i) (coordInv_step v0 n c i h)

theorem accepted_add_exhausted (l : List Attempt)
    (h : ∀ a ∈ l, a.status ≠ AttStatus.running) :
    (l.filter fun a => a.status = AttStatus.accepted).length +
      (l.filter fun a => a.status = AttStatus.exhausted).length = l.length := by
  induction l with
  | nil => simp
  | cons a t ih =>
      have ha := h a (List.mem_cons_self a t)
      have ht := fun x hx => h x (List.mem_cons_of_mem _ hx)
      have hih := ih ht
      simp only [List.filter_cons, List.length_cons]
      cases hst : a.status with
      | running => exact absurd hst ha
      | accepted => simp [hst]; omega
      | exhausted => simp [hst]; omega

/-- C1 (amended; the Write Coordinator is modelled from the spec, as its
backend source is not in the repository snapshot): under every interleaving,
each accepted mutation's resulting version is exactly one greater than the
version that attempt read, at most one mutation is accepted against any
given prior version (the accepted prior versions are pairwise distinct),
the final version equals the initial version plus the number of accepted
writes, a conflicting attempt is retried up to 3 times (four conditional
writes in all) before surfacing ConflictExhausted, and — when every attempt
terminates and none exhausts its retry budget — exactly N writes are
accepted and the final version is v+N.  (Without the no-exhaustion proviso
the claim fails; see the counterexample.) -/
theorem c1_write_coordinator :
    ∀ (v0 n : Nat) (sched : List Nat),
      (∀ p ∈ (runC (initCoord v0 n) sched).log, p.2 = p.1 + 1) ∧
        ((runC (initCoord v0 n) sched).log.map Prod.fst).Nodup ∧
        (runC (initCoord v0 n) sched).version =
          v0 + (runC (initCoord v0 n) sched).log.length ∧
        (runC (initCoord v0 n) sched).log.length =
          acceptedCount (runC (initCoord v0 n) sched) ∧
        (∀ a ∈ (runC (initCoord v0 n) sched).attempts,
          a.status = AttStatus.exhausted → a.casTries = maxWriteRetries + 1) ∧
        (coordDone (runC (initCoord v0 n) sched) = true →
          acceptedCount (runC (initCoord v0 n) sched) +
            exhaustedCount (runC (initCoord v0 n) sched) = n) ∧
        (coordDone (runC (initCoord v0 n) sched) = true →
          exhaustedCount (runC (initCoord v0 n) sched) = 0 →
          acceptedCount (runC (initCoord v0 n) sched) = n ∧
            (runC (initCoord v0 n) sched).version = v0 + n) := by
  intro v0 n sched
  obtain ⟨hlen, hver, hlog, hacc, hexh, hrun⟩ :=
    coordInv_runC v0 n sched (initCoord v0 n) (coordInv_init v0 n)
  have hd : coordDone (runC (initCoord v0 n) sched) = true →
      acceptedCount (runC (initCoord v0 n) sched) +
        exhaustedCount (runC (initCoord v0 n) sched) = n := by
    intro hdone
    have hall : ∀ a ∈ (runC (initCoord v0 n) sched).attempts,
        a.status ≠ AttStatus.running := by
      intro a ha
      have h2 := List.all_eq_true.mp hdone a ha
      exact of_decide_eq_true h2
    have hsum := accepted_add_exhausted _ hall
    unfold acceptedCount exhaustedCount
    omega
  refine ⟨?_, ?_, hver, hacc, hexh, hd, ?_⟩
  · intro p hp
    rw [hlog] at hp
    simp only [List.mem_map, List.mem_range] at hp
    obtain ⟨j, -, rfl⟩ := hp
    rfl
  · rw [hlog, List.map_map]
    have hcomp : (Prod.fst ∘ fun j => (v0 + j, v0 + j + 1)) = fun j => v0 + j := rfl
    rw [hcomp]
    exact List.Nodup.map (fun x y hxy => by omega) (List.nodup_range _)
  · intro hdone hzero
    have hsum := hd hdone
    constructor
    · omega
    · rw [hver, hacc]
      omega

/-- C1 counterexample: with 5 concurrent attempts racing from version 1,
there is an interleaving (attempt 4 loses every conditional write) under
which all attempts terminate, yet only 4 writes are accepted, one attempt
surfaces ConflictExhausted, and the final version is 5, not 1+5 — refuting
"exactly N accepted writes and final version v+N regardless of
interleaving" for bounded retries. -/
theorem c1_conflict_exhaustion_counterexample :
    coordDone (runC (initCoord 1 5)
        [0, 4, 0, 4, 1, 4, 1, 4, 2, 4, 2, 4, 3, 4, 3, 4]) = true ∧
      acceptedCount (runC (initCoord 1 5)
        [0, 4, 0, 4, 1, 4, 1, 4, 2, 4, 2, 4, 3, 4, 3, 4]) = 4 ∧
      exhaustedCount (runC (initCoord 1 5)
        [0, 4, 0, 4, 1, 4, 1, 4, 2, 4, 2, 4, 3, 4, 3, 4]) = 1 ∧
      (runC (initCoord 1 5)
        [0, 4, 0, 4, 1, 4, 1, 4, 2, 4, 2, 4, 3, 4, 3, 4]).version = 5 ∧
      ¬(acceptedCount (runC (initCoord 1 5)
          [0, 4, 0, 4, 1, 4, 1, 4, 2, 4, 2, 4, 3, 4, 3, 4]) = 5 ∧
        (runC (initCoord 1 5)
          [0, 4, 0, 4, 1, 4, 1, 4, 2, 4, 2, 4, 3, 4, 3, 4]).version = 1 + 5) := by
  decide

/-- Witness for C1 (amended): two sequential attempts from version 1 both
get accepted and the final version is 3. -/
theorem c1_write_coordinator_witness :
    coordDone (runC (initCoord 1 2) [0, 0, 1, 1]) = true ∧
      exhaustedCount (runC (initCoord 1 2) [0, 0, 1, 1]) = 0 ∧
      acceptedCount (runC (initCoord 1 2) [0, 0, 1, 1]) = 2 ∧
      (runC (initCoord 1 2) [0, 0, 1, 1]).version = 1 + 2 :=
  ⟨by decide, by decide,
   ((c1_write_coordinator 1 2 [0, 0, 1, 1]).2.2.2.2.2.2 (by decide) (by decide)).1,
   ((c1_write_coordinator 1 2 [0, 0, 1, 1]).2.2.2.2.2.2 (by decide) (by decide)).2⟩

end StoryOS
